import Mathlib

/-!
Verification of the TerziAI session controller and persistent message store
against their natural-language specification.

The development shallowly embeds the TypeScript sources:
* `src/utils/models.ts`   — static model catalog and fallback-selection queries;
* `src/utils/storage.ts`  — IndexedDB-backed message store (queued, timeout-bounded);
* `src/hooks/useWebLLM.ts`— the session controller hook (engine lifecycle, generation,
  cancellation, error classification).

Pure functions become Lean functions.  Asynchronous operations become state
transformers parameterised by the outcomes of their external collaborators
(GPU probe, engine construction, backend faults), and where a claim is about
interleaving, a small labelled step machine whose steps are the synchronous
segments between `await` points of the JavaScript code (JavaScript is
single-threaded, so those segments execute atomically).

Numeric conventions: model memory requirements (`vramMB`, a decimal number of
megabytes in the source) are embedded exactly as integer centi-megabytes
(`vramCentiMB = 100 * vramMB`); message timestamps (`Date` values, serialised
to ISO strings for storage — an order-preserving injection) are embedded as
integer epoch milliseconds.
-/

/-! ### String helpers (JavaScript `String.prototype.includes`, `toLowerCase`) -/

/-- `charsStartsWith pat l` : `pat` is an initial run of `l`. -/
def charsStartsWith : List Char → List Char → Bool
  | [], _ => true
  | _ :: _, [] => false
  | c :: cs, d :: ds => c == d && charsStartsWith cs ds

/-- `charsHasSub pat l` : `pat` occurs contiguously inside `l`. -/
def charsHasSub (pat : List Char) : List Char → Bool
  | [] => charsStartsWith pat []
  | c :: t => charsStartsWith pat (c :: t) || charsHasSub pat t

/-- JavaScript `s.includes(pat)` (case-sensitive substring test). -/
def strHasSub (s pat : String) : Bool := charsHasSub pat.data s.data

/-- JavaScript `s.toLowerCase()` (the classifier only feeds it ASCII data,
where `Char.toLower` agrees with JavaScript). -/
def strToLower (s : String) : String := String.mk (s.data.map Char.toLower)

theorem charsStartsWith_append (p rest : List Char) :
    charsStartsWith p (p ++ rest) = true := by
  induction p with
  | nil => rfl
  | cons c cs ih => simp [charsStartsWith, ih]

theorem charsHasSub_append_middle (a b c : List Char) :
    charsHasSub b (a ++ b ++ c) = true := by
  induction a with
  | nil =>
      cases b with
      | nil => cases c <;> simp [charsHasSub, charsStartsWith]
      | cons x xs =>
          simp only [List.nil_append, List.cons_append, charsHasSub]
          have := charsStartsWith_append (x :: xs) c
          simp only [List.cons_append] at this
          simp [this]
  | cons x xs ih =>
      cases b with
      | nil => cases (xs ++ [] ++ c) <;> simp [charsHasSub, charsStartsWith]
      | cons y ys =>
          simp only [List.cons_append, charsHasSub, Bool.or_eq_true]
          exact Or.inr ih

/-- Substring containment for strings built by concatenation. -/
theorem strHasSub_append_middle (a b c : String) :
    strHasSub (a ++ b ++ c) b = true := by
  have h : (a ++ b ++ c).data = a.data ++ b.data ++ c.data := by
    cases a; cases b; cases c; rfl
  simpa [strHasSub, h] using charsHasSub_append_middle a.data b.data c.data

/-! ### Model catalog — `src/utils/models.ts`

`ModelInfo` keeps the behaviour-relevant fields of the source interface
(`id`, `name`, `vramMB` as centi-MB, `lowResource`, `shaderType`); the
display-only `size` and `description` fields are omitted. -/

inductive ShaderType
  | f16
  | f32
deriving DecidableEq, Repr

structure ModelInfo where
  id : String
  name : String
  vramCentiMB : Nat
  lowResource : Bool
  shaderType : ShaderType
deriving DecidableEq, Repr

/-- The static catalog `AVAILABLE_MODELS` (f32 entries first, then f16). -/
def AVAILABLE_MODELS : List ModelInfo := [
  ⟨"Llama-3.2-1B-Instruct-q4f32_1-MLC", "Llama 3.2 1B (f32)", 113000, true, ShaderType.f32⟩,
  ⟨"Llama-3.2-3B-Instruct-q4f32_1-MLC", "Llama 3.2 3B (f32)", 295000, true, ShaderType.f32⟩,
  ⟨"Phi-3.5-mini-instruct-q4f32_1-MLC", "Phi 3.5 Mini (f32)", 320000, true, ShaderType.f32⟩,
  ⟨"Llama-3.1-8B-Instruct-q4f32_1-MLC-1k", "Llama 3.1 8B (1k, f32)", 530000, true, ShaderType.f32⟩,
  ⟨"Llama-3.1-8B-Instruct-q4f32_1-MLC", "Llama 3.1 8B (f32)", 610000, false, ShaderType.f32⟩,
  ⟨"SmolLM2-360M-Instruct-q4f16_1-MLC", "SmolLM2-360M", 37606, true, ShaderType.f16⟩,
  ⟨"TinyLlama-1.1B-Chat-v1.0-q4f16_1-MLC-1k", "TinyLlama-1.1B", 67524, true, ShaderType.f16⟩,
  ⟨"Llama-3.2-1B-Instruct-q4f16_1-MLC", "Llama 3.2 1B", 87904, true, ShaderType.f16⟩,
  ⟨"Qwen2.5-1.5B-Instruct-q4f16_1-MLC", "Qwen 2.5 1.5B", 162975, true, ShaderType.f16⟩,
  ⟨"Llama-3.2-3B-Instruct-q4f16_1-MLC", "Llama 3.2 3B", 226369, true, ShaderType.f16⟩,
  ⟨"Qwen2.5-3B-Instruct-q4f16_1-MLC", "Qwen 2.5 3B", 250476, true, ShaderType.f16⟩,
  ⟨"Phi-3.5-mini-instruct-q4f16_1-MLC-1k", "Phi 3.5 Mini", 252007, true, ShaderType.f16⟩,
  ⟨"Llama-3.1-8B-Instruct-q4f16_1-MLC-1k", "Llama 3.1 8B (1k)", 459834, true, ShaderType.f16⟩,
  ⟨"Llama-3.1-8B-Instruct-q4f16_1-MLC", "Llama 3.1 8B", 500100, false, ShaderType.f16⟩,
  ⟨"Qwen2.5-7B-Instruct-q4f16_1-MLC", "Qwen 2.5 7B", 510667, false, ShaderType.f16⟩]

/-- `getAvailableModels(supportsShaderF16, limitForMobile)`: tier filter, then
on mobile keep only the first three entries (`models.slice(0, 3)`). -/
def getAvailableModels (supportsShaderF16 limitForMobile : Bool) : List ModelInfo :=
  let models := if supportsShaderF16 then AVAILABLE_MODELS
                else AVAILABLE_MODELS.filter (fun m => m.shaderType == ShaderType.f32)
  if limitForMobile then models.take 3 else models

/-- `getModelById(modelId)`. -/
def getModelById (modelId : String) : Option ModelInfo :=
  AVAILABLE_MODELS.find? (fun m => m.id == modelId)

/-- `getNextSmallerModel(currentModelId, supportsShaderF16, limitForMobile)`:
the entry preceding the current one in the tier-filtered list, `none` when the
current model is first or is not in the list (`findIndex` returns `-1`). -/
def getNextSmallerModel (currentModelId : String)
    (supportsShaderF16 limitForMobile : Bool) : Option ModelInfo :=
  let availableModels := getAvailableModels supportsShaderF16 limitForMobile
  match availableModels.findIdx? (fun m => m.id == currentModelId) with
  | none => none
  | some 0 => none
  | some (i + 1) => availableModels.get? i

/-- `getSmallestModel(supportsShaderF16, limitForMobile)` = `availableModels[0]`.
The source indexes unconditionally; the tier-filtered list is never empty, so
the default entry of `headD` is never used. -/
def getSmallestModel (supportsShaderF16 limitForMobile : Bool) : ModelInfo :=
  (getAvailableModels supportsShaderF16 limitForMobile).headD
    ⟨"Llama-3.2-1B-Instruct-q4f32_1-MLC", "Llama 3.2 1B (f32)", 113000, true, ShaderType.f32⟩

theorem getAvailableModels_ne_nil (supportsShaderF16 limitForMobile : Bool) :
    getAvailableModels supportsShaderF16 limitForMobile ≠ [] := by
  cases supportsShaderF16 <;> cases limitForMobile <;> decide

/-- `formatVRAMToGB(vramMB)` = `(Math.round((vramMB / 1024) * 10) / 10).toString()`,
over exact centi-MB arithmetic (no catalog value sits on a rounding tie, so this
agrees with the floating-point source). -/
def formatVRAMToGB (vramCentiMB : Nat) : String :=
  let d : Nat := (vramCentiMB + 5120) / 10240
  if d % 10 == 0 then toString (d / 10) else toString (d / 10) ++ "." ++ toString (d % 10)

/-- Adjacent non-decrease of a list of naturals. -/
def nonDecreasingNat : List Nat → Bool
  | [] => true
  | [_] => true
  | a :: b :: t => a ≤ b && nonDecreasingNat (b :: t)

/-- C8 (amended): in `AVAILABLE_MODELS` every f32 (wide-compatibility) entry
precedes every f16 (narrow) entry and each shader-type group is non-decreasing
in memory requirement; with the mobile flag set, `getAvailableModels` returns
exactly the first three entries of the tier-filtered list; those three are the
smallest entries of the list when shader-f16 is unsupported (when it is
supported, smaller f16 entries are excluded — see the counterexample). -/
theorem catalog_grouping_and_mobile_take :
    AVAILABLE_MODELS
      = AVAILABLE_MODELS.filter (fun m => m.shaderType == ShaderType.f32)
        ++ AVAILABLE_MODELS.filter (fun m => m.shaderType == ShaderType.f16)
    ∧ nonDecreasingNat
        ((AVAILABLE_MODELS.filter (fun m => m.shaderType == ShaderType.f32)).map
          ModelInfo.vramCentiMB) = true
    ∧ nonDecreasingNat
        ((AVAILABLE_MODELS.filter (fun m => m.shaderType == ShaderType.f16)).map
          ModelInfo.vramCentiMB) = true
    ∧ (∀ supportsShaderF16 : Bool,
        getAvailableModels supportsShaderF16 true
          = (getAvailableModels supportsShaderF16 false).take 3)
    ∧ (∀ supportsShaderF16 : Bool, (getAvailableModels supportsShaderF16 true).length = 3)
    ∧ (∀ m ∈ getAvailableModels false true,
        ∀ m' ∈ (getAvailableModels false false).drop 3,
          m.vramCentiMB ≤ m'.vramCentiMB) := by
  refine ⟨by decide, by decide, by decide, ?_, ?_, by decide⟩ <;> intro b <;> cases b <;> decide

/-- C8 (counterexample): when shader-f16 is supported, the mobile list is not
made of the smallest entries — an excluded entry (SmolLM2-360M, 376.06 MB) is
strictly smaller than every entry of the mobile list (the three f32 models). -/
theorem mobile_take_not_smallest :
    ∃ m' ∈ (getAvailableModels true false).drop 3,
      ∀ m ∈ getAvailableModels true true, m'.vramCentiMB < m.vramCentiMB := by
  decide

/-! ### Messages and the IndexedDB-backed store — `src/types/chat.ts`, `src/utils/storage.ts`

The backend database is keyed by `id` (`createObjectStore` with key path `id`);
`store.getAll()` therefore returns records in ascending **key** (id) order,
which for the UUID strings used as ids is code-unit lexicographic order.
`saveMessages` clears the store and re-adds every message, so on the success
path the resulting database content is exactly the serialised message list. -/

inductive Role
  | user
  | assistant
  | system
deriving DecidableEq, Repr

/-- `ChatMessage` (timestamp as epoch milliseconds). -/
structure Msg where
  id : String
  role : Role
  content : String
  timestamp : Int
deriving DecidableEq, Repr

/-- A stored record: the message with its timestamp serialised
(`toISOString`, an order-preserving injection — kept as the integer here). -/
structure StoredMsg where
  id : String
  role : Role
  content : String
  timestamp : Int
deriving DecidableEq, Repr

def toStorable (m : Msg) : StoredMsg := ⟨m.id, m.role, m.content, m.timestamp⟩

/-- `new Date(msg.timestamp)` on load. -/
def fromStored (r : StoredMsg) : Msg := ⟨r.id, r.role, r.content, r.timestamp⟩

/-- Code-unit lexicographic order on strings (IndexedDB string-key order). -/
def charsLt : List Char → List Char → Bool
  | [], [] => false
  | [], _ :: _ => true
  | _ :: _, [] => false
  | a :: as, b :: bs =>
      if a.toNat < b.toNat then true
      else if b.toNat < a.toNat then false
      else charsLt as bs

def idbKeyLt (a b : String) : Bool := charsLt a.data b.data

/-- Insert a record into a key-ascending list (ids are unique in the store,
so ties do not arise). -/
def insertByKey (m : StoredMsg) : List StoredMsg → List StoredMsg
  | [] => [m]
  | x :: xs => if idbKeyLt m.id x.id then m :: x :: xs else x :: insertByKey m xs

/-- `store.getAll()`: the records of the database in ascending id order. -/
def getAllModel (db : List StoredMsg) : List StoredMsg :=
  db.foldr insertByKey []

/-- `saveMessages(messages)` success path: `store.clear()` then one
`store.add` per message, so the database afterwards holds exactly the
serialised messages (ids assumed distinct — duplicate ids make `add` reject). -/
def saveToDb (messages : List Msg) : List StoredMsg :=
  messages.map toStorable

/-- `loadMessages()` success path: `getAll`, then deserialise each record.
No sorting is performed by the source. -/
def loadFromDb (db : List StoredMsg) : List Msg :=
  (getAllModel db).map fromStored

/-- Ascending-timestamp check on a message list. -/
def ascendingTimestamps : List Msg → Bool
  | [] => true
  | [_] => true
  | a :: b :: t => a.timestamp ≤ b.timestamp && ascendingTimestamps (b :: t)

/-- Modelled from the spec (for comparison only): re-sorting a conversation
ascending by timestamp, the order the specification says `load` returns. -/
def sortByTimestampSpec (l : List Msg) : List Msg :=
  l.foldr insertByTimestamp []
where
  insertByTimestamp (m : Msg) : List Msg → List Msg
    | [] => [m]
    | x :: xs => if m.timestamp ≤ x.timestamp then m :: x :: xs else x :: insertByTimestamp m xs

/-- Two messages whose id order disagrees with their timestamp order:
the message with the later timestamp has the smaller id. -/
def c1FailingMessages : List Msg :=
  [⟨"b", Role.user, "first", 0⟩, ⟨"a", Role.assistant, "second", 1⟩]

/-- C1: `save(M); load()` does NOT return `M` re-sorted ascending by
timestamp — `loadMessages` performs no sort and `getAll` yields id order, so
saving a conversation whose random UUID ids disagree with chronological order
loads it with timestamps out of order.  The repository's own test suite states
the intent (`loadMessages should sort messages by timestamp in ascending
order`), so this is a code bug, demonstrated here at a concrete input. -/
theorem loadMessages_returns_id_order_not_timestamp_order :
    loadFromDb (saveToDb c1FailingMessages)
      = [⟨"a", Role.assistant, "second", 1⟩, ⟨"b", Role.user, "first", 0⟩]
    ∧ loadFromDb (saveToDb c1FailingMessages) ≠ sortByTimestampSpec c1FailingMessages
    ∧ ascendingTimestamps (loadFromDb (saveToDb c1FailingMessages)) = false := by
  decide

/-! ### The store operation queue — `withDatabaseOperation`

`withDatabaseOperation` guards every store operation with a module-wide flag
and wait list (`operationInProgress` / `operationQueue`) and races the
operation against a 10-second timeout.  JavaScript is single-threaded, so the
admission/handoff code runs atomically; the machine below has one step per
such atomic segment.  A save's backend writes are one IndexedDB `readwrite`
transaction (atomic with respect to other transactions), so a completed save
is modelled as one atomic replacement of the stored content.  Crucially, the
timeout only rejects the wrapper promise: the admitted operation itself is
abandoned, not cancelled, and its transaction may still commit later
(`lateCommit`). -/

structure QMState where
  inProgress : Bool
  queue : List Nat
  admitted : Option Nat
  abandoned : List Nat
  stored : List StoredMsg
  admissionLog : List Nat
  settled : List Nat
deriving DecidableEq, Repr

inductive QEv
  | arrive (c : Nat)
  | commit
  | timeoutFire
  | lateCommit (c : Nat)
deriving DecidableEq, Repr

/-- The `finally` block: clear the flag, then hand the slot to the queue head
(the resumed waiter re-sets the flag before anything else can run). -/
def qRelease (s : QMState) : QMState :=
  match s.queue with
  | [] => { s with inProgress := false, admitted := none }
  | d :: rest =>
      { s with inProgress := true, admitted := some d, queue := rest,
               admissionLog := s.admissionLog ++ [d] }

/-- One step of the queue machine; `p` gives each save call's payload
(already serialised). -/
def qStep (p : Nat → List StoredMsg) (s : QMState) : QEv → QMState
  | QEv.arrive c =>
      if s.inProgress then { s with queue := s.queue ++ [c] }
      else { s with inProgress := true, admitted := some c,
                    admissionLog := s.admissionLog ++ [c] }
  | QEv.commit =>
      match s.admitted with
      | none => s
      | some c => qRelease { s with stored := p c, settled := s.settled ++ [c] }
  | QEv.timeoutFire =>
      match s.admitted with
      | none => s
      | some c => qRelease { s with settled := s.settled ++ [c],
                                    abandoned := s.abandoned ++ [c] }
  | QEv.lateCommit c =>
      if s.abandoned.contains c then
        { s with stored := p c, abandoned := s.abandoned.erase c }
      else s

def qInit (store0 : List StoredMsg) : QMState :=
  ⟨false, [], none, [], store0, [], []⟩

def runQ (p : Nat → List StoredMsg) (store0 : List StoredMsg) (evs : List QEv) : QMState :=
  evs.foldl (qStep p) (qInit store0)

/-- The arrivals of a trace, in order. -/
def qArrivals : List QEv → List Nat
  | [] => []
  | QEv.arrive c :: t => c :: qArrivals t
  | _ :: t => qArrivals t

/-- A trace in which no admitted operation hits the 10-second timeout. -/
def qNoTimeout (evs : List QEv) : Bool :=
  evs.all (fun ev => match ev with
    | QEv.timeoutFire => false
    | QEv.lateCommit _ => false
    | _ => true)

/-- The inductive invariant of the queue machine. -/
def qInv (p : Nat → List StoredMsg) (store0 : List StoredMsg)
    (arr : List Nat) (s : QMState) : Prop :=
  s.admissionLog ++ s.queue = arr
  ∧ s.inProgress = s.admitted.isSome
  ∧ (s.admitted = none → s.queue = [])
  ∧ s.settled ++ s.admitted.toList = s.admissionLog
  ∧ s.abandoned = []
  ∧ s.stored = (match s.settled.getLast? with
                | none => store0
                | some c => p c)

theorem qInv_init (p : Nat → List StoredMsg) (store0 : List StoredMsg) :
    qInv p store0 [] (qInit store0) := by
  simp [qInv, qInit]

theorem qInv_step (p : Nat → List StoredMsg) (store0 : List StoredMsg)
    (arr : List Nat) (s : QMState) (ev : QEv)
    (hgood : (match ev with
      | QEv.timeoutFire => False
      | QEv.lateCommit _ => False
      | _ => True))
    (h : qInv p store0 arr s) :
    qInv p store0 (arr ++ qArrivals [ev]) (qStep p s ev) := by
  obtain ⟨h1, h2, h3, h4, h5, h6⟩ := h
  cases ev with
  | arrive c =>
      by_cases hp : s.inProgress = true
      · refine ⟨?_, ?_, ?_, ?_, ?_, ?_⟩ <;>
          simp only [qStep, hp, if_pos, qArrivals]
        · rw [← List.append_assoc, h1]
        · rw [← hp]; exact h2
        · intro hA
          rw [hp] at h2; rw [hA] at h2; simp at h2
        · exact h4
        · exact h5
        · exact h6
      · have hadm : s.admitted = none := by
          cases hA : s.admitted with
          | none => rfl
          | some a => rw [hA] at h2; simp at h2; exact absurd h2 hp
        have hq : s.queue = [] := h3 hadm
        have hb : s.inProgress = false := by
          cases hi : s.inProgress with
          | false => rfl
          | true => exact absurd hi hp
        refine ⟨?_, ?_, ?_, ?_, ?_, ?_⟩ <;>
          simp only [qStep, hb, Bool.false_eq_true, if_neg, qArrivals, not_false_iff]
        · rw [hq]; rw [hq] at h1; simp at h1 ⊢; exact h1
        · simp
        · intro hcon; simp at hcon
        · rw [hadm] at h4; simp at h4
          simp [h4]
        · exact h5
        · rw [hadm] at h4; exact h6
  | commit =>
      cases hA : s.admitted with
      | none =>
          refine ⟨?_, ?_, ?_, ?_, ?_, ?_⟩ <;>
            simp_all [qStep, qArrivals]
      | some c =>
          have hlast : ∀ l : List Nat, (l ++ [c]).getLast? = some c := by
            intro l; simp [List.getLast?_concat]
          rw [hA] at h2 h4
          simp only [Option.isSome_some] at h2
          simp only [Option.toList_some] at h4
          cases hq : s.queue with
          | nil =>
              refine ⟨?_, ?_, ?_, ?_, ?_, ?_⟩ <;>
                simp only [qStep, hA, qRelease, hq, qArrivals, List.append_nil]
              · rw [hq] at h1; simpa using h1
              · simp
              · intro _; simp
              · simpa using h4
              · exact h5
              · rw [hlast]
          | cons d rest =>
              refine ⟨?_, ?_, ?_, ?_, ?_, ?_⟩ <;>
                simp only [qStep, hA, qRelease, hq, qArrivals, List.append_nil]
              · rw [hq] at h1; rw [List.append_assoc]; simpa using h1
              · simp
              · intro hcon; simp at hcon
              · simp [h4]
              · exact h5
              · rw [hlast]
  | timeoutFire => exact absurd hgood (by simp)
  | lateCommit c => exact absurd hgood (by simp)

theorem qArrivals_append (a b : List QEv) :
    qArrivals (a ++ b) = qArrivals a ++ qArrivals b := by
  induction a with
  | nil => rfl
  | cons ev t ih => cases ev <;> simp [qArrivals, ih]

theorem qInv_run (p : Nat → List StoredMsg) (store0 : List StoredMsg)
    (evs : List QEv) (hgood : qNoTimeout evs = true) :
    qInv p store0 (qArrivals evs) (runQ p store0 evs) := by
  induction evs using List.reverseRecOn with
  | nil => exact qInv_init p store0
  | append_singleton evs ev ih =>
      have hsplit : qNoTimeout evs = true ∧ qNoTimeout [ev] = true := by
        have hb : qNoTimeout (evs ++ [ev]) = (qNoTimeout evs && qNoTimeout [ev]) := by
          simp [qNoTimeout, List.all_append]
        rw [hb, Bool.and_eq_true] at hgood
        exact hgood
      have hstep : runQ p store0 (evs ++ [ev]) = qStep p (runQ p store0 evs) ev := by
        simp [runQ, List.foldl_append]
      rw [hstep, qArrivals_append]
      refine qInv_step p store0 (qArrivals evs) (runQ p store0 evs) ev ?_ (ih hsplit.1)
      cases ev <;> simp_all [qNoTimeout]

/-- C2 (amended): overlapping store operations are admitted one at a time in
FIFO arrival order (the admission log plus the wait queue always equals the
arrival sequence, and operations settle in admission order), and — provided no
admitted operation is abandoned by the 10-second timeout — after any trace the
stored content is exactly the payload of the last settled save, never a blend
of two payloads.  The timeout proviso is forced by the counterexample: a
timed-out save's backend transaction is abandoned, not cancelled, and may
commit after (and overwrite) a later save. -/
theorem save_queue_fifo_last_write_wins
    (p : Nat → List StoredMsg) (store0 : List StoredMsg) (evs : List QEv)
    (hgood : qNoTimeout evs = true) :
    ((runQ p store0 evs).admissionLog ++ (runQ p store0 evs).queue = qArrivals evs)
    ∧ ((runQ p store0 evs).settled ++ (runQ p store0 evs).admitted.toList
        = (runQ p store0 evs).admissionLog)
    ∧ ((runQ p store0 evs).stored
        = match (runQ p store0 evs).settled.getLast? with
          | none => store0
          | some c => p c) := by
  obtain ⟨h1, _, _, h4, _, h6⟩ := qInv_run p store0 evs hgood
  exact ⟨h1, h4, h6⟩

def cePayload : Nat → List StoredMsg := fun c =>
  if c = 1 then [⟨"m1", Role.user, "first save", 0⟩]
  else [⟨"m2", Role.user, "second save", 1⟩]

def ceGoodTrace : List QEv := [QEv.arrive 1, QEv.arrive 2, QEv.commit, QEv.commit]

theorem save_queue_fifo_last_write_wins_witness :
    qNoTimeout ceGoodTrace = true
    ∧ ((runQ cePayload [] ceGoodTrace).stored
        = match (runQ cePayload [] ceGoodTrace).settled.getLast? with
          | none => ([] : List StoredMsg)
          | some c => cePayload c) :=
  ⟨by decide, (save_queue_fifo_last_write_wins cePayload [] ceGoodTrace (by decide)).2.2⟩

def ceBadTrace : List QEv :=
  [QEv.arrive 1, QEv.arrive 2, QEv.timeoutFire, QEv.commit, QEv.lateCommit 1]

/-- C2 (counterexample): two overlapping saves where the first is abandoned by
the operation timeout.  Both calls settle (the first by rejection, the second
— the FIFO-last — by resolution), yet the final stored content is the FIRST
call's payload: its backend transaction commits after the second save's.  So
"once both complete, the stored content equals exactly the payload of
whichever call's promise settled last" fails on the code. -/
theorem save_timeout_overwrites_later_save :
    (runQ cePayload [] ceBadTrace).queue = []
    ∧ (runQ cePayload [] ceBadTrace).admitted = none
    ∧ (runQ cePayload [] ceBadTrace).settled = [1, 2]
    ∧ (runQ cePayload [] ceBadTrace).stored = cePayload 1
    ∧ cePayload 1 ≠ cePayload 2 := by
  decide

/-! ### `saveMessages` / `loadMessages` failure propagation

`saveMessages` runs its body inside `withDatabaseOperation` (which races the
body against a 10-second timeout whose rejection bypasses the body's
`try/catch`), and the body catches every inner failure, re-throwing it only
when `error.message.includes` finds the text `quota`.  Quota-exceeded faults from `add`
requests (detected by the `QuotaExceededError` name, asynchronously or
synchronously) are wrapped in a fixed message before rejection.  The inner
failure is the first of: the database-open failure, the first failing `add`,
the transaction failure. -/

inductive AddFault
  | quotaExceeded
  | otherAdd (msg : String)
deriving DecidableEq, Repr

/-- How a failing `add` rejects: `QuotaExceededError` is wrapped, others pass
their message through. -/
def wrapAddFault : AddFault → String
  | AddFault.quotaExceeded => "Storage quota exceeded. Please clear old messages."
  | AddFault.otherAdd msg => msg

/-- The first failing `add` request (per-message outcomes in request order). -/
def firstAddFailure : List (Option AddFault) → Option String
  | [] => none
  | some f :: _ => some (wrapAddFault f)
  | none :: rest => firstAddFailure rest

/-- The failure the `try` block of the save operation observes, if any. -/
def saveInnerFailure (openFail : Option String) (adds : List (Option AddFault))
    (txnFail : Option String) : Option String :=
  match openFail with
  | some e => some e
  | none =>
      match firstAddFailure adds with
      | some m => some m
      | none => txnFail

/-- The `catch` block: re-throw iff the message contains `quota`. -/
def savePropagated : Option String → Option String
  | none => none
  | some m => if strHasSub m "quota" then some m else none

/-- The rejection (if any) the caller of `saveMessages` observes:
no IndexedDB → resolve; wrapper timeout → reject; otherwise the catch-filtered
inner failure. -/
def saveMessagesOutcome (available timesOut : Bool) (openFail : Option String)
    (adds : List (Option AddFault)) (txnFail : Option String) : Option String :=
  if available = false then none
  else if timesOut then some "Database operation timeout"
  else savePropagated (saveInnerFailure openFail adds txnFail)

/-- C7 (counterexample): `saveMessages` can reject with a failure that is not
a quota-exceeded fault — the 10-second operation timeout rejects the caller's
promise with no storage fault at all, and any inner failure whose text merely
contains `quota` (here a database-open failure) is also re-thrown. -/
theorem save_rejects_without_quota_fault :
    saveMessagesOutcome true true none [] none = some "Database operation timeout"
    ∧ saveInnerFailure none ([] : List (Option AddFault)) none = none
    ∧ saveMessagesOutcome true false (some "disk quota low") [] none
        = some "disk quota low" := by
  decide

/-- C7 (amended): `saveMessages` rejects exactly when IndexedDB is available
and either the 10-second operation timeout fires or the inner failure's
message contains `quota`; every quota-exceeded `add` fault is wrapped as
`"Storage quota exceeded. Please clear old messages."` and propagates; every
other inner storage failure is swallowed and the promise resolves. -/
theorem save_propagation_characterization
    (available timesOut : Bool) (openFail : Option String)
    (adds : List (Option AddFault)) (txnFail : Option String) :
    ((saveMessagesOutcome available timesOut openFail adds txnFail).isSome
      = (available && (timesOut
          || (saveInnerFailure openFail adds txnFail).elim false
              (fun m => strHasSub m "quota"))))
    ∧ (available = true → timesOut = false → openFail = none →
        firstAddFailure adds = some (wrapAddFault AddFault.quotaExceeded) →
        saveMessagesOutcome available timesOut openFail adds txnFail
          = some "Storage quota exceeded. Please clear old messages.") := by
  constructor
  · cases available with
    | false => simp [saveMessagesOutcome]
    | true =>
        cases timesOut with
        | true => simp [saveMessagesOutcome]
        | false =>
            cases h : saveInnerFailure openFail adds txnFail with
            | none => simp [saveMessagesOutcome, h, savePropagated]
            | some m =>
                by_cases hq : strHasSub m "quota" = true
                · simp [saveMessagesOutcome, h, savePropagated, hq]
                · simp [saveMessagesOutcome, h, savePropagated, hq]
  · intro ha ht ho hf
    subst ha; subst ht; subst ho
    have hq : strHasSub "Storage quota exceeded. Please clear old messages." "quota"
        = true := by decide
    simp [saveMessagesOutcome, saveInnerFailure, hf, savePropagated, wrapAddFault, hq]

theorem save_propagation_characterization_witness :
    saveMessagesOutcome true false none [some AddFault.quotaExceeded] none
      = some "Storage quota exceeded. Please clear old messages." :=
  (save_propagation_characterization true false none [some AddFault.quotaExceeded] none).2
    rfl rfl rfl (by decide)

/-- The `try` block of the load operation: any open or read failure is caught
and yields `[]`; a successful read deserialises the records as returned. -/
def loadInner (openFail : Option String)
    (readResult : Except String (List StoredMsg)) : List Msg :=
  match openFail with
  | some _ => []
  | none =>
      match readResult with
      | Except.error _ => []
      | Except.ok recs => recs.map fromStored

/-- The outcome the caller of `loadMessages` observes. -/
def loadMessagesOutcome (available timesOut : Bool) (openFail : Option String)
    (readResult : Except String (List StoredMsg)) : Except String (List Msg) :=
  if available = false then Except.ok []
  else if timesOut then Except.error "Database operation timeout"
  else Except.ok (loadInner openFail readResult)

/-- C10: `loadMessages` never rejects because of a storage backend error
raised inside the operation — every open or read failure resolves the call
with `[]`; the only possible rejection is the 10-second operation timeout,
which is raced against the operation outside its internal error handler. -/
theorem load_rejects_only_on_timeout
    (available timesOut : Bool) (openFail : Option String)
    (readResult : Except String (List StoredMsg)) :
    (∀ e, loadMessagesOutcome available timesOut openFail readResult = Except.error e →
      timesOut = true ∧ available = true ∧ e = "Database operation timeout")
    ∧ (timesOut = false →
        (openFail ≠ none ∨ (∃ msg, readResult = Except.error msg)) →
        loadMessagesOutcome available timesOut openFail readResult = Except.ok []) := by
  constructor
  · intro e he
    cases available with
    | false => simp [loadMessagesOutcome] at he
    | true =>
        cases timesOut with
        | false => simp [loadMessagesOutcome] at he
        | true =>
            simp [loadMessagesOutcome] at he
            exact ⟨rfl, rfl, he.symm⟩
  · intro ht hfault
    subst ht
    cases available with
    | false => simp [loadMessagesOutcome]
    | true =>
        simp only [loadMessagesOutcome, Bool.false_eq_true, if_neg, if_false,
          not_false_iff, Except.ok.injEq]
        rcases hfault with ho | ⟨msg, hr⟩
        · cases openFail with
          | none => exact absurd rfl ho
          | some e => simp [loadInner]
        · subst hr
          cases openFail <;> simp [loadInner]

theorem load_rejects_only_on_timeout_witness :
    loadMessagesOutcome true false (some "open failed")
      (Except.ok ([] : List StoredMsg)) = Except.ok [] :=
  (load_rejects_only_on_timeout true false (some "open failed")
      (Except.ok [])).2 rfl (Or.inl (by simp))

/-! ### Session controller — `src/hooks/useWebLLM.ts`

The hook's reactive state is a record; each operation is an atomic state
transformer parameterised by the outcomes of its awaited collaborators
(GPU probe result, engine construction result, engine token stream), since
JavaScript runs each synchronous segment to completion.  A `stopGeneration`
arriving at an `await` inside a generation loop is modelled by the `stopAt`
field of the send environment.  `ChatConfig` keeps the `modelId` the
controller branches on; the remaining config fields (system prompt, token
limit, temperature) are only forwarded to the engine collaborator. -/

inductive Status
  | idle
  | loading
  | ready
  | generating
  | error
  | demo
deriving DecidableEq, Repr

inductive EngineMode
  | gpu
  | demo
deriving DecidableEq, Repr

structure LoadingProgress where
  text : String
  progress : Nat
deriving DecidableEq, Repr

structure ChatConfig where
  modelId : String
deriving DecidableEq, Repr

structure GPUStatus where
  hasGPU : Bool
  supportsShaderF16 : Bool
  vendor : Option String
  errorReason : Option String
deriving DecidableEq, Repr

/-- The hook's state: the reactive fields plus the refs
(`engineRef` as presence, `initializingRef`, `demoResponseIndex`,
`abortControllerRef` as `none` = no controller / `some b` = controller with
`signal.aborted = b`). -/
structure HookState where
  messages : List Msg
  status : Status
  mode : Option EngineMode
  loadingProgress : LoadingProgress
  error : Option String
  gpuInfo : Option String
  suggestedModelId : Option String
  cachedModelId : Option String
  engine : Option Unit
  initializing : Bool
  demoResponseIndex : Nat
  abortCtl : Option Bool
deriving DecidableEq, Repr

def hookInit : HookState :=
  ⟨[], Status.idle, none, ⟨"", 0⟩, none, none, none, none, none, false, 0, none⟩

/-- JavaScript `x || d` for an optional string (`undefined`, `null` and `""`
are falsy). -/
def jsOrDefault (o : Option String) (d : String) : String :=
  match o with
  | none => d
  | some s => if s = "" then d else s

def DEMO_RESPONSES : List String := [
  "Hello! I\x27m TerziAI running in demo mode. Your device doesn\x27t have WebGPU support, so I\x27m providing simulated responses. To use the full AI capabilities, please use a browser with WebGPU support (like Chrome 113+ or Edge 113+) on a device with a compatible GPU.",
  "I\x27m currently in demo mode because WebGPU isn\x27t available on your device. This is a preview of how TerziAI works. For actual AI responses, you\x27ll need a WebGPU-compatible browser and GPU.",
  "Great question! In demo mode, I can show you the chat interface, but real AI processing requires WebGPU. Try Chrome or Edge on a device with a GPU for the full experience.",
  "TerziAI demo mode is active. While I can\x27t process your message with AI right now, this shows how the interface works. WebGPU support is needed for local LLM inference.",
  "Thanks for trying TerziAI! Demo mode is active due to missing WebGPU support. The full version runs AI models directly in your browser for complete privacy."]

/-- `DEMO_RESPONSES[demoResponseIndex.current % DEMO_RESPONSES.length]`. -/
def demoResponseAt (k : Nat) : String :=
  DEMO_RESPONSES.getD (k % DEMO_RESPONSES.length) ""

/-- `disposeEngine`: when an engine is held, abort any pending generation,
invoke its unload/dispose capability (failures logged, never thrown) and
clear the reference unconditionally. -/
def disposeEngineModel (s : HookState) : HookState :=
  match s.engine with
  | none => s
  | some _ => { s with abortCtl := s.abortCtl.map (fun _ => true), engine := none }

/-- Cache/network classification (lower-cased substring tests). -/
def isCacheError (msg : String) : Bool :=
  let l := strToLower msg
  strHasSub l "cache" || strHasSub l "network error" || strHasSub l "networkerror"
    || strHasSub l "failed to fetch"

/-- Memory/allocation classification (case-sensitive substring tests). -/
def isMemoryError (msg : String) : Bool :=
  strHasSub msg "memory" || strHasSub msg "OOM" || strHasSub msg "Out of memory"
    || strHasSub msg "allocation" || strHasSub msg "buffer"

/-- GPU-failure classification (checked after the cache classification). -/
def isGpuInitError (msg : String) : Bool :=
  strHasSub msg "GPU" || strHasSub msg "WebGPU" || strHasSub msg "adapter"

def cacheErrorText : String :=
  "Failed to download model files. This may be due to network issues, insufficient disk space, or browser cache limitations. Try: (1) Ensure you have sufficient disk space (2GB+), (2) Clear browser cache and reload, or (3) Try a different browser."

/-- The suggestion message of the memory-error branch. -/
def memErrorText (currentModelName : String) (nextSmaller : ModelInfo)
    (smallestName : String) : String :=
  "Model \"" ++ currentModelName ++ "\" is too large for your device. Try \""
    ++ nextSmaller.name ++ "\" instead (requires "
    ++ formatVRAMToGB nextSmaller.vramCentiMB
    ++ "GB). The smallest model \"" ++ smallestName ++ "\" works on most devices."

instance {ε α : Type} [DecidableEq ε] [DecidableEq α] : DecidableEq (Except ε α) := fun x y =>
  match x, y with
  | Except.ok a, Except.ok b =>
      if h : a = b then isTrue (by rw [h]) else isFalse (by intro hc; cases hc; exact h rfl)
  | Except.ok _, Except.error _ => isFalse (by intro hc; cases hc)
  | Except.error _, Except.ok _ => isFalse (by intro hc; cases hc)
  | Except.error a, Except.error b =>
      if h : a = b then isTrue (by rw [h]) else isFalse (by intro hc; cases hc; exact h rfl)

/-- The outcomes of the collaborators `initializeEngine` awaits. -/
structure InitEnv where
  isTestEnv : Bool
  gpu : GPUStatus
  lowResource : Bool
  constructResult : Except String Unit
deriving DecidableEq, Repr

/-- `initializingRef.current || engineRef.current || status loading/demo`. -/
def initGuardBlocked (s : HookState) : Bool :=
  s.initializing || s.engine.isSome || s.status == Status.loading
    || s.status == Status.demo

/-- `cachedModelId && cachedModelId !== fullConfig.modelId` (empty id falsy). -/
def needsDisposeCached (cfg : ChatConfig) (s : HookState) : Bool :=
  match s.cachedModelId with
  | none => false
  | some c => !(c == "") && !(c == cfg.modelId)

def initDisposeBeginState (s : HookState) : HookState :=
  { s with loadingProgress := ⟨"Clearing cached model...", 5⟩ }

def initDisposeEndState (s : HookState) : HookState :=
  { disposeEngineModel s with cachedModelId := none }

def initAfterDisposeState (s : HookState) : HookState :=
  { s with status := Status.loading, error := none,
           loadingProgress := ⟨"Checking GPU support...", 5⟩ }

def testEnvDemoState (cfg : ChatConfig) (s : HookState) : HookState :=
  { s with mode := some EngineMode.demo, status := Status.demo,
           gpuInfo := some "Test environment - Demo mode",
           loadingProgress := ⟨"Demo mode active (test environment)", 100⟩,
           cachedModelId := some cfg.modelId, initializing := false }

def noGpuDemoState (cfg : ChatConfig) (env : InitEnv) (s : HookState) : HookState :=
  { s with mode := some EngineMode.demo, status := Status.demo,
           gpuInfo := some (jsOrDefault env.gpu.errorReason "No GPU available"),
           loadingProgress := ⟨"Demo mode active - No GPU detected", 100⟩,
           cachedModelId := some cfg.modelId, initializing := false }

def initGpuPathState (env : InitEnv) (s : HookState) : HookState :=
  { s with mode := some EngineMode.gpu,
           gpuInfo := some (jsOrDefault env.gpu.vendor "GPU detected"),
           loadingProgress := ⟨"Loading AI model...", 10⟩ }

def initSuccessState (cfg : ChatConfig) (s : HookState) : HookState :=
  { s with engine := some (), status := Status.ready,
           loadingProgress := ⟨"Model loaded successfully!", 100⟩,
           suggestedModelId := none, cachedModelId := some cfg.modelId,
           initializing := false }

/-- The classification chain of the `catch` block of `initializeEngine`:
cache/network first, then GPU faults (degrade), then memory faults (suggest
the next smaller model, or degrade when none), else surface the raw message;
the cache, memory-with-suggestion and unclassified branches end in
`status = error`. -/
def initFailureClassify (cfg : ChatConfig) (env : InitEnv) (msg : String)
    (s : HookState) : HookState :=
  if isCacheError msg then
    { s with error := some cacheErrorText, status := Status.error }
  else if isGpuInitError msg then
    { s with mode := some EngineMode.demo, status := Status.demo,
             gpuInfo := some msg,
             loadingProgress := ⟨"Demo mode active - GPU initialization failed", 100⟩ }
  else if isMemoryError msg then
    match getNextSmallerModel cfg.modelId env.gpu.supportsShaderF16 env.lowResource with
    | some nextSmaller =>
        { s with suggestedModelId := some nextSmaller.id,
                 error := some (memErrorText
                    (jsOrDefault ((getModelById cfg.modelId).map ModelInfo.name)
                      "Selected model")
                    nextSmaller
                    (getSmallestModel env.gpu.supportsShaderF16 env.lowResource).name),
                 status := Status.error }
    | none =>
        { s with mode := some EngineMode.demo, status := Status.demo,
                 gpuInfo := some "Insufficient memory for AI models",
                 loadingProgress := ⟨"Demo mode active - Insufficient memory", 100⟩ }
  else
    { s with error := some msg, status := Status.error }

/-- The `catch` block of `initializeEngine`: clear the in-progress flag
(`initializingRef.current = false` comes first), then classify. -/
def initFailureState (cfg : ChatConfig) (env : InitEnv) (msg : String)
    (s : HookState) : HookState :=
  initFailureClassify cfg env msg { s with initializing := false }

/-- `initializeEngine` run to completion (guards, optional disposal of a
stale cached engine, probe, construction, classification). -/
def initializeEngine (cfg : ChatConfig) (env : InitEnv) (s : HookState) : HookState :=
  if initGuardBlocked s then s
  else
    let s1 := { s with initializing := true }
    let s2 := if needsDisposeCached cfg s1 then initDisposeEndState (initDisposeBeginState s1)
              else s1
    let s3 := initAfterDisposeState s2
    if env.isTestEnv then testEnvDemoState cfg s3
    else if env.gpu.hasGPU = false then noGpuDemoState cfg env s3
    else
      let s4 := initGpuPathState env s3
      match env.constructResult with
      | Except.ok _ => initSuccessState cfg s4
      | Except.error msg => initFailureState cfg env msg s4

/-! #### Generation (`sendMessage`), cancellation, clear, reset -/

inductive GenFailure
  | abortError
  | otherFailure (msg : String)
deriving DecidableEq, Repr

/-- The outcomes of the collaborators `sendMessage` awaits: fresh ids and
timestamps for the two appended messages, an optional interleaved
`stopGeneration` arriving before cancellation check number `stopAt`, and the
engine stream (a token-delta list, or a failure). -/
structure SendEnv where
  userMsgId : String
  asstMsgId : String
  userTs : Int
  asstTs : Int
  stopAt : Option Nat
  engineResult : Except GenFailure (List String)
deriving DecidableEq, Repr

/-- The demo loop's cancellation test at iteration `i`
(`abortControllerRef.current?.signal.aborted`): no controller is falsy; an
existing controller reads its aborted flag, which an interleaved stop raises
from check `k` on. -/
def abortedAtDemo (ctl : Option Bool) (stopAt : Option Nat) (i : Nat) : Bool :=
  match ctl with
  | none => false
  | some b => b || (match stopAt with | some k => decide (k ≤ i) | none => false)

/-- The revealed-character count of the demo typing loop
(`for i in 0..=len: if aborted, break; content := response.slice(0, i)`). -/
def demoTypeGo : Nat → Nat → Nat → (Nat → Bool) → Nat
  | 0, _, acc, _ => acc
  | n + 1, i, acc, aborted => if aborted i then acc else demoTypeGo n (i + 1) i aborted

def demoRevealedLength (len : Nat) (aborted : Nat → Bool) : Nat :=
  demoTypeGo (len + 1) 0 0 aborted

/-- Effect of an interleaved `stopGeneration` on the controller ref
(`?.abort()`: only an existing controller can be aborted). -/
def applyInterleavedStop (stopAt : Option Nat) (ctl : Option Bool) : Option Bool :=
  match stopAt with
  | none => ctl
  | some _ => ctl.map (fun _ => true)

/-- The accelerated stream loop's cancellation test before chunk `j`: the
controller is freshly created non-aborted, so only an interleaved stop
raises it. -/
def abortedAtGpu (stopAt : Option Nat) (j : Nat) : Bool :=
  match stopAt with
  | some k => decide (k ≤ j)
  | none => false

/-- Accumulated assistant content of the accelerated stream
(`for chunk: if aborted, break; fullResponse += delta`). -/
def streamAccumGo : List String → (Nat → Bool) → Nat → String → String
  | [], _, _, acc => acc
  | d :: ds, aborted, j, acc =>
      if aborted j then acc else streamAccumGo ds aborted (j + 1) (acc ++ d)

/-- `sendMessage(content)` run to completion.  A call during a generation
returns (resolved) with the state unchanged; a call with neither demo status
nor a ready engine throws `Engine not ready`; otherwise the user message is
appended and the demo typing loop or the engine stream fills a fresh
assistant message, subject to the cancellation checks.  Ids supplied by the
environment are assumed fresh (`crypto.randomUUID`), so updating the
assistant message by id is updating the appended message. -/
def sendMessage (cfg : ChatConfig) (env : SendEnv) (content : String)
    (s : HookState) : Except String HookState :=
  if s.status == Status.generating then Except.ok s
  else if !(s.status == Status.demo) && (!s.engine.isSome || !(s.status == Status.ready)) then
    Except.error "Engine not ready"
  else
    let userMessage : Msg := ⟨env.userMsgId, Role.user, content, env.userTs⟩
    let s1 := { s with messages := s.messages ++ [userMessage] }
    if s.status == Status.demo then
      let response := demoResponseAt s.demoResponseIndex
      let revealed := demoRevealedLength response.length
        (abortedAtDemo s.abortCtl env.stopAt)
      Except.ok { s1 with
        messages := s1.messages
          ++ [⟨env.asstMsgId, Role.assistant,
               String.mk (response.data.take revealed), env.asstTs⟩],
        status := Status.demo,
        demoResponseIndex := s.demoResponseIndex + 1,
        abortCtl := applyInterleavedStop env.stopAt s.abortCtl }
    else
      match env.engineResult with
      | Except.error GenFailure.abortError =>
          Except.ok { s1 with
            messages := s1.messages ++ [⟨env.asstMsgId, Role.assistant, "", env.asstTs⟩],
            error := none, status := Status.ready,
            abortCtl := applyInterleavedStop env.stopAt (some false) }
      | Except.error (GenFailure.otherFailure msg) =>
          Except.ok { s1 with
            messages := s1.messages ++ [⟨env.asstMsgId, Role.assistant, "", env.asstTs⟩],
            error := some msg, status := Status.ready,
            abortCtl := applyInterleavedStop env.stopAt (some false) }
      | Except.ok deltas =>
          let full := streamAccumGo deltas (abortedAtGpu env.stopAt) 0 ""
          Except.ok { s1 with
            messages := s1.messages ++ [⟨env.asstMsgId, Role.assistant, full, env.asstTs⟩],
            error := none, status := Status.ready,
            abortCtl := applyInterleavedStop env.stopAt (some false) }

/-- `stopGeneration`: abort the controller if one exists; leave `generating`
for `ready`; the demo branch re-sets an unchanged `demo` status. -/
def stopGeneration (s : HookState) : HookState :=
  { s with abortCtl := s.abortCtl.map (fun _ => true),
           status := if s.status == Status.generating then Status.ready else s.status }

/-- `clearMessages` (the persisted copy is overwritten through the store,
modelled separately). -/
def clearMessagesHook (s : HookState) : HookState :=
  { s with messages := [] }

/-- `reset`: abort, clear the in-progress flag, dispose the engine, restore
every auxiliary field — but keep `messages` and the demo round-robin index. -/
def resetHook (s : HookState) : HookState :=
  let s' := disposeEngineModel
    { s with abortCtl := s.abortCtl.map (fun _ => true), initializing := false }
  { s' with status := Status.idle, mode := none, loadingProgress := ⟨"", 0⟩,
            error := none, gpuInfo := none, suggestedModelId := none,
            cachedModelId := none }

inductive HookEv
  | initCall (env : InitEnv)
  | send (env : SendEnv) (content : String)
  | stop
  | clear
  | reset

/-- One UI trigger, run to completion (a thrown `sendMessage` leaves the
state unchanged — the throw precedes every state update). -/
def hookStep (cfg : ChatConfig) (s : HookState) : HookEv → HookState
  | HookEv.initCall env => initializeEngine cfg env s
  | HookEv.send env content =>
      match sendMessage cfg env content s with
      | Except.ok s' => s'
      | Except.error _ => s
  | HookEv.stop => stopGeneration s
  | HookEv.clear => clearMessagesHook s
  | HookEv.reset => resetHook s

def runHook (cfg : ChatConfig) (evs : List HookEv) : HookState :=
  evs.foldl (hookStep cfg) hookInit

/-- Reachability invariant of the controller: in demo status no engine is
held, and whenever no engine is held the controller ref is absent or already
aborted (every path that drops the engine aborts first). -/
def hookInv (s : HookState) : Prop :=
  (s.status = Status.demo → s.engine = none)
  ∧ (s.engine = none → s.abortCtl ≠ some false)

/-- The observable surface the UI consumes (everything but the refs). -/
def observableState (s : HookState) :
    List Msg × Status × Option EngineMode × LoadingProgress × Option String
      × Option String × Option String × Option String :=
  (s.messages, s.status, s.mode, s.loadingProgress, s.error, s.gpuInfo,
   s.suggestedModelId, s.cachedModelId)

/-! #### Substring and loop helper lemmas -/

theorem charsStartsWith_extend (p l r : List Char)
    (h : charsStartsWith p l = true) : charsStartsWith p (l ++ r) = true := by
  induction p generalizing l with
  | nil => rfl
  | cons c cs ih =>
      cases l with
      | nil => simp [charsStartsWith] at h
      | cons d ds =>
          simp only [charsStartsWith, Bool.and_eq_true] at h
          simp only [List.cons_append, charsStartsWith, Bool.and_eq_true]
          exact ⟨h.1, ih ds h.2⟩

theorem charsHasSub_nil_pattern (r : List Char) : charsHasSub [] r = true := by
  cases r <;> simp [charsHasSub, charsStartsWith]

theorem charsHasSub_extend_right (p l r : List Char)
    (h : charsHasSub p l = true) : charsHasSub p (l ++ r) = true := by
  induction l with
  | nil =>
      have hp : p = [] := by
        cases p with
        | nil => rfl
        | cons c cs => simp [charsHasSub, charsStartsWith] at h
      subst hp
      simpa using charsHasSub_nil_pattern r
  | cons c t ih =>
      simp only [charsHasSub, Bool.or_eq_true] at h
      rcases h with h | h
      · have := charsStartsWith_extend p (c :: t) r h
        simp only [List.cons_append] at this ⊢
        simp [charsHasSub, this]
      · simp only [List.cons_append, charsHasSub, Bool.or_eq_true]
        exact Or.inr (ih h)

theorem charsHasSub_extend_left (p l r : List Char)
    (h : charsHasSub p r = true) : charsHasSub p (l ++ r) = true := by
  induction l with
  | nil => simpa using h
  | cons c t ih =>
      simp only [List.cons_append, charsHasSub, Bool.or_eq_true]
      exact Or.inr ih

theorem strData_append (a b : String) : (a ++ b).data = a.data ++ b.data := by
  cases a; cases b; rfl

theorem strHasSub_app_left (s r pat : String)
    (h : strHasSub s pat = true) : strHasSub (s ++ r) pat = true := by
  unfold strHasSub at h ⊢
  rw [strData_append]
  exact charsHasSub_extend_right pat.data s.data r.data h

theorem strHasSub_app_right (s r pat : String)
    (h : strHasSub r pat = true) : strHasSub (s ++ r) pat = true := by
  unfold strHasSub at h ⊢
  rw [strData_append]
  exact charsHasSub_extend_left pat.data s.data r.data h

theorem strHasSub_self (s : String) : strHasSub s s = true := by
  unfold strHasSub
  cases s with
  | mk d =>
      cases d with
      | nil => rfl
      | cons c t =>
          have := charsStartsWith_append (c :: t) []
          rw [List.append_nil] at this
          simp [charsHasSub, this]

/-- The suggestion message names the failed model. -/
theorem memErrorText_has_current (cur : String) (m : ModelInfo) (sm : String) :
    strHasSub (memErrorText cur m sm) cur = true := by
  unfold memErrorText
  apply strHasSub_app_left
  apply strHasSub_app_left
  apply strHasSub_app_left
  apply strHasSub_app_left
  apply strHasSub_app_left
  apply strHasSub_app_left
  apply strHasSub_app_left
  apply strHasSub_app_right
  exact strHasSub_self cur

/-- The suggestion message names the suggested (next smaller) model. -/
theorem memErrorText_has_next (cur : String) (m : ModelInfo) (sm : String) :
    strHasSub (memErrorText cur m sm) m.name = true := by
  unfold memErrorText
  apply strHasSub_app_left
  apply strHasSub_app_left
  apply strHasSub_app_left
  apply strHasSub_app_left
  apply strHasSub_app_left
  apply strHasSub_app_right
  exact strHasSub_self m.name

theorem demoTypeGo_never (f : Nat → Bool) (hf : ∀ j, f j = false) :
    ∀ (n i acc : Nat), demoTypeGo (n + 1) i acc f = i + n := by
  intro n
  induction n with
  | zero => intro i acc; simp [demoTypeGo, hf i]
  | succ n ih =>
      intro i acc
      have : demoTypeGo (n + 1 + 1) i acc f = demoTypeGo (n + 1) (i + 1) i f := by
        simp [demoTypeGo, hf i]
      rw [this, ih (i + 1) i]
      omega

theorem demoRevealedLength_never (len : Nat) (f : Nat → Bool)
    (hf : ∀ j, f j = false) : demoRevealedLength len f = len := by
  unfold demoRevealedLength
  rw [demoTypeGo_never f hf len 0 0]
  omega

theorem strMk_take_length (r : String) : String.mk (r.data.take r.length) = r := by
  cases r with
  | mk d => simp [String.length]

/-! #### Controller invariant preservation -/

theorem initFailureClassify_engine (cfg : ChatConfig) (env : InitEnv)
    (msg : String) (s : HookState) :
    (initFailureClassify cfg env msg s).engine = s.engine := by
  unfold initFailureClassify
  repeat' split
  all_goals simp

theorem initFailureClassify_abortCtl (cfg : ChatConfig) (env : InitEnv)
    (msg : String) (s : HookState) :
    (initFailureClassify cfg env msg s).abortCtl = s.abortCtl := by
  unfold initFailureClassify
  repeat' split
  all_goals simp

theorem initGuard_fields (s : HookState) (hg : initGuardBlocked s = false) :
    s.initializing = false ∧ s.engine = none
      ∧ s.status ≠ Status.loading ∧ s.status ≠ Status.demo := by
  unfold initGuardBlocked at hg
  simp only [Bool.or_eq_false_iff] at hg
  obtain ⟨⟨⟨hi, he⟩, hl⟩, hd⟩ := hg
  refine ⟨hi, ?_, ?_, ?_⟩
  · cases hee : s.engine with
    | none => rfl
    | some u => rw [hee] at he; simp at he
  · intro hc; rw [hc] at hl; simp at hl
  · intro hc; rw [hc] at hd; simp at hd

/-- After a non-blocked `initializeEngine`, either the engine slot and the
controller ref are untouched (every demo/failure path), or construction
succeeded and the state is `ready` holding an engine. -/
theorem initializeEngine_cases (cfg : ChatConfig) (env : InitEnv) (s : HookState)
    (hg : initGuardBlocked s = false) :
    ((initializeEngine cfg env s).engine = s.engine
      ∧ (initializeEngine cfg env s).abortCtl = s.abortCtl)
    ∨ ((initializeEngine cfg env s).engine = some ()
      ∧ (initializeEngine cfg env s).status = Status.ready) := by
  obtain ⟨hi, he, hl, hd⟩ := initGuard_fields s hg
  unfold initializeEngine
  rw [hg]
  simp only [Bool.false_eq_true, if_false]
  have hstates : ∀ t : HookState, t.engine = none → t.abortCtl = s.abortCtl →
      (((if env.isTestEnv then testEnvDemoState cfg (initAfterDisposeState t)
        else if env.gpu.hasGPU = false then
          noGpuDemoState cfg env (initAfterDisposeState t)
        else
          match env.constructResult with
          | Except.ok _ => initSuccessState cfg (initGpuPathState env (initAfterDisposeState t))
          | Except.error msg =>
              initFailureState cfg env msg
                (initGpuPathState env (initAfterDisposeState t))).engine = s.engine
      ∧ (if env.isTestEnv then testEnvDemoState cfg (initAfterDisposeState t)
        else if env.gpu.hasGPU = false then
          noGpuDemoState cfg env (initAfterDisposeState t)
        else
          match env.constructResult with
          | Except.ok _ => initSuccessState cfg (initGpuPathState env (initAfterDisposeState t))
          | Except.error msg =>
              initFailureState cfg env msg
                (initGpuPathState env (initAfterDisposeState t))).abortCtl = s.abortCtl)
      ∨ ((if env.isTestEnv then testEnvDemoState cfg (initAfterDisposeState t)
        else if env.gpu.hasGPU = false then
          noGpuDemoState cfg env (initAfterDisposeState t)
        else
          match env.constructResult with
          | Except.ok _ => initSuccessState cfg (initGpuPathState env (initAfterDisposeState t))
          | Except.error msg =>
              initFailureState cfg env msg
                (initGpuPathState env (initAfterDisposeState t))).engine = some ()
        ∧ (if env.isTestEnv then testEnvDemoState cfg (initAfterDisposeState t)
          else if env.gpu.hasGPU = false then
            noGpuDemoState cfg env (initAfterDisposeState t)
          else
            match env.constructResult with
            | Except.ok _ => initSuccessState cfg (initGpuPathState env (initAfterDisposeState t))
            | Except.error msg =>
                initFailureState cfg env msg
                  (initGpuPathState env (initAfterDisposeState t))).status = Status.ready)) := by
    intro t hte htc
    by_cases ht : env.isTestEnv = true
    · left
      rw [ht]
      constructor <;> simp [testEnvDemoState, initAfterDisposeState, hte, htc, he]
    · have ht' : env.isTestEnv = false := by simpa using ht
      rw [ht']
      simp only [Bool.false_eq_true, if_false]
      by_cases hgpu : env.gpu.hasGPU = false
      · left
        rw [if_pos hgpu]
        constructor <;> simp [noGpuDemoState, initAfterDisposeState, hte, htc, he]
      · rw [if_neg hgpu]
        cases hres : env.constructResult with
        | ok u =>
            right
            constructor <;>
              simp [initSuccessState, initGpuPathState, initAfterDisposeState]
        | error msg =>
            left
            unfold initFailureState
            constructor
            · rw [initFailureClassify_engine]
              simp [initGpuPathState, initAfterDisposeState, hte, he]
            · rw [initFailureClassify_abortCtl]
              simp [initGpuPathState, initAfterDisposeState, htc]
  by_cases hdc : needsDisposeCached cfg { s with initializing := true } = true
  · rw [if_pos hdc]
    exact hstates _ (by simp [initDisposeEndState, initDisposeBeginState,
        disposeEngineModel, he])
      (by simp [initDisposeEndState, initDisposeBeginState, disposeEngineModel, he])
  · rw [if_neg hdc]
    exact hstates _ (by simp [he]) (by simp)

theorem hookInv_init0 : hookInv hookInit := by
  constructor <;> intro h <;> simp_all [hookInit]

theorem hookInv_stop (s : HookState) (h : hookInv s) : hookInv (stopGeneration s) := by
  obtain ⟨h1, h2⟩ := h
  constructor
  · intro hdemo
    simp only [stopGeneration] at hdemo ⊢
    by_cases hgen : (s.status == Status.generating) = true
    · rw [if_pos hgen] at hdemo; cases hdemo
    · rw [if_neg hgen] at hdemo
      exact h1 hdemo
  · intro _
    simp only [stopGeneration]
    cases s.abortCtl <;> simp

theorem hookInv_clear (s : HookState) (h : hookInv s) : hookInv (clearMessagesHook s) := by
  obtain ⟨h1, h2⟩ := h
  constructor
  · intro hdemo
    simp only [clearMessagesHook] at hdemo ⊢
    exact h1 hdemo
  · intro he
    simp only [clearMessagesHook] at he ⊢
    exact h2 he

theorem hookInv_reset (s : HookState) (h : hookInv s) : hookInv (resetHook s) := by
  constructor
  · intro hdemo
    exfalso
    simp [resetHook] at hdemo
  · intro _
    simp only [resetHook, disposeEngineModel]
    cases hE : s.engine <;> cases hC : s.abortCtl <;> simp [hE, hC]

theorem hookInvInitEngine (cfg : ChatConfig) (env : InitEnv) (s : HookState)
    (h : hookInv s) : hookInv (initializeEngine cfg env s) := by
  obtain ⟨h1, h2⟩ := h
  by_cases hg : initGuardBlocked s = true
  · unfold initializeEngine
    rw [hg]
    simp only [if_true]
    exact ⟨h1, h2⟩
  · have hgf : initGuardBlocked s = false := by simpa using hg
    obtain ⟨hi, he, hl, hd⟩ := initGuard_fields s hgf
    rcases initializeEngine_cases cfg env s hgf with ⟨he', hc'⟩ | ⟨he', hs'⟩
    · constructor
      · intro _
        rw [he', he]
      · intro _
        rw [hc']
        exact h2 he
    · constructor
      · intro hdemo
        rw [hs'] at hdemo; cases hdemo
      · intro he2
        rw [he'] at he2; cases he2

theorem applyInterleavedStop_ne_false (stopAt : Option Nat) (ctl : Option Bool)
    (h : ctl ≠ some false) : applyInterleavedStop stopAt ctl ≠ some false := by
  cases stopAt <;> cases ctl <;> simp_all [applyInterleavedStop]

theorem hookInv_send (cfg : ChatConfig) (env : SendEnv) (content : String)
    (s s' : HookState) (h : hookInv s)
    (hok : sendMessage cfg env content s = Except.ok s') : hookInv s' := by
  obtain ⟨h1, h2⟩ := h
  unfold sendMessage at hok
  by_cases hgen : (s.status == Status.generating) = true
  · rw [if_pos hgen] at hok
    simp only [Except.ok.injEq] at hok
    subst hok
    exact ⟨h1, h2⟩
  · rw [if_neg hgen] at hok
    by_cases hgrd : (!(s.status == Status.demo)
        && (!s.engine.isSome || !(s.status == Status.ready))) = true
    · rw [if_pos hgrd] at hok; cases hok
    · rw [if_neg hgrd] at hok
      by_cases hdemo : (s.status == Status.demo) = true
      · rw [if_pos hdemo] at hok
        simp only [Except.ok.injEq] at hok
        subst hok
        have hds : s.status = Status.demo := by simpa using hdemo
        have hen : s.engine = none := h1 hds
        constructor
        · intro _
          simpa using hen
        · intro _
          exact applyInterleavedStop_ne_false env.stopAt s.abortCtl (h2 hen)
      · rw [if_neg hdemo] at hok
        have hgrdf : (!(s.status == Status.demo)
            && (!s.engine.isSome || !(s.status == Status.ready))) = false := by
          cases hX : (!(s.status == Status.demo)
              && (!s.engine.isSome || !(s.status == Status.ready))) with
          | false => rfl
          | true => exact absurd hX hgrd
        have hdemof : (s.status == Status.demo) = false := by
          cases hX : (s.status == Status.demo) with
          | false => rfl
          | true => exact absurd hX hdemo
        rw [hdemof] at hgrdf
        simp only [Bool.not_false, Bool.true_and, Bool.or_eq_false_iff] at hgrdf
        have hready : s.engine.isSome = true := by simpa using hgrdf.1
        cases hres : env.engineResult with
        | ok deltas =>
            rw [hres] at hok
            simp only [Except.ok.injEq] at hok
            subst hok
            constructor
            · intro hdm; simp at hdm
            · intro he2
              simp at he2
              rw [he2] at hready
              simp at hready
        | error gf =>
            cases gf with
            | abortError =>
                rw [hres] at hok
                simp only [Except.ok.injEq] at hok
                subst hok
                constructor
                · intro hdm; simp at hdm
                · intro he2
                  simp at he2
                  rw [he2] at hready
                  simp at hready
            | otherFailure msg =>
                rw [hres] at hok
                simp only [Except.ok.injEq] at hok
                subst hok
                constructor
                · intro hdm; simp at hdm
                · intro he2
                  simp at he2
                  rw [he2] at hready
                  simp at hready

theorem hookInv_step (cfg : ChatConfig) (s : HookState) (ev : HookEv)
    (h : hookInv s) : hookInv (hookStep cfg s ev) := by
  cases ev with
  | initCall env => exact hookInvInitEngine cfg env s h
  | send env content =>
      simp only [hookStep]
      cases hres : sendMessage cfg env content s with
      | ok s' => exact hookInv_send cfg env content s s' h hres
      | error e => exact h
  | stop => exact hookInv_stop s h
  | clear => exact hookInv_clear s h
  | reset => exact hookInv_reset s h

theorem hookInv_run (cfg : ChatConfig) (evs : List HookEv) :
    hookInv (runHook cfg evs) := by
  induction evs using List.reverseRecOn with
  | nil => exact hookInv_init0
  | append_singleton evs ev ih =>
      have hstep : runHook cfg (evs ++ [ev]) = hookStep cfg (runHook cfg evs) ev := by
        simp [runHook, List.foldl_append]
      rw [hstep]
      exact hookInv_step cfg (runHook cfg evs) ev ih

/-- C4: `sendMessage` called while a generation is in flight resolves with the
state unchanged — no user message, no assistant message, no new abort
controller and no demo round-robin advance, hence no second stream. -/
theorem send_while_generating_unchanged (cfg : ChatConfig) (env : SendEnv)
    (content : String) (s : HookState) (h : s.status = Status.generating) :
    sendMessage cfg env content s = Except.ok s := by
  unfold sendMessage
  rw [h]
  rfl

def cfg0 : ChatConfig := ⟨"Llama-3.2-1B-Instruct-q4f32_1-MLC"⟩

def envSend0 : SendEnv := ⟨"u1", "a1", 0, 1, none, Except.ok []⟩

def sGenerating : HookState := { hookInit with status := Status.generating }

theorem send_while_generating_unchanged_witness :
    sendMessage cfg0 envSend0 "hi" sGenerating = Except.ok sGenerating :=
  send_while_generating_unchanged cfg0 envSend0 "hi" sGenerating rfl

/-! #### `stopGeneration` properties -/

theorem stop_idem (s : HookState) :
    stopGeneration (stopGeneration s) = stopGeneration s := by
  obtain ⟨msgs, st, md, lp, er, gi, sg, cm, en, ini, dri, ac⟩ := s
  rcases ac with _ | b
  · cases st <;> rfl
  · cases b <;> cases st <;> rfl

theorem stop_obs (s : HookState) (hng : s.status ≠ Status.generating) :
    observableState (stopGeneration s) = observableState s := by
  have hgenb : (s.status == Status.generating) = false := by
    cases hX : (s.status == Status.generating) with
    | false => rfl
    | true => exact absurd (by simpa using hX) hng
  simp [observableState, stopGeneration, hgenb]

theorem stop_noop_of_ctl_none (s : HookState) (hng : s.status ≠ Status.generating)
    (hc : s.abortCtl = none) : stopGeneration s = s := by
  obtain ⟨msgs, st, md, lp, er, gi, sg, cm, en, ini, dri, ac⟩ := s
  simp only at hc
  subst hc
  have hgenb : (st == Status.generating) = false := by
    cases hX : (st == Status.generating) with
    | false => rfl
    | true => exact absurd (by simpa using hX) hng
  simp [stopGeneration, hgenb]

theorem stop_send_eq (cfg : ChatConfig) (env : SendEnv) (content : String)
    (s : HookState) (h : hookInv s) (hng : s.status ≠ Status.generating) :
    sendMessage cfg env content (stopGeneration s)
      = sendMessage cfg env content s := by
  obtain ⟨h1, h2⟩ := h
  obtain ⟨msgs, st, md, lp, er, gi, sg, cm, en, ini, dri, ac⟩ := s
  have hgenb : (st == Status.generating) = false := by
    cases hX : (st == Status.generating) with
    | false => rfl
    | true => exact absurd (by simpa using hX) hng
  rcases ac with _ | b
  · rw [stop_noop_of_ctl_none _ hng rfl]
  · cases b with
    | true =>
        have : stopGeneration ⟨msgs, st, md, lp, er, gi, sg, cm, en, ini, dri, some true⟩
            = ⟨msgs, st, md, lp, er, gi, sg, cm, en, ini, dri, some true⟩ := by
          simp [stopGeneration, hgenb]
        rw [this]
    | false =>
        have hen : en = some () := by
          cases hE : en with
          | none =>
              subst hE
              exact absurd rfl (h2 rfl)
          | some u => cases u; rfl
        subst hen
        have hnd : st ≠ Status.demo := by
          intro hd
          have := h1 (by simpa using hd)
          simp at this
        have hdemob : (st == Status.demo) = false := by
          cases hX : (st == Status.demo) with
          | false => rfl
          | true => exact absurd (by simpa using hX) hnd
        have hstop : stopGeneration ⟨msgs, st, md, lp, er, gi, sg, cm, some (), ini, dri, some false⟩
            = ⟨msgs, st, md, lp, er, gi, sg, cm, some (), ini, dri, some true⟩ := by
          simp [stopGeneration, hgenb]
        rw [hstop]
        unfold sendMessage
        dsimp only
        rw [hgenb, hdemob]
        by_cases hrd : (st == Status.ready) = true
        · rw [hrd]
          cases henv : env.engineResult with
          | ok deltas => rfl
          | error gf => cases gf <;> rfl
        · have hrdf : (st == Status.ready) = false := by
            cases hX : (st == Status.ready) with
            | false => rfl
            | true => exact absurd hX hrd
          rw [hrdf]
          rfl

/-- A demo-mode send with no controller and no interleaved stop reveals the
full scripted response. -/
theorem demo_send_full (cfg : ChatConfig) (env : SendEnv) (content : String)
    (s : HookState) (hdemo : s.status = Status.demo) (hstop : env.stopAt = none)
    (hctl : s.abortCtl = none) :
    sendMessage cfg env content s = Except.ok { s with
      messages := s.messages ++ [⟨env.userMsgId, Role.user, content, env.userTs⟩]
        ++ [⟨env.asstMsgId, Role.assistant, demoResponseAt s.demoResponseIndex,
             env.asstTs⟩],
      status := Status.demo,
      demoResponseIndex := s.demoResponseIndex + 1,
      abortCtl := none } := by
  have hgenb : (s.status == Status.generating) = false := by rw [hdemo]; rfl
  have hdemob : (s.status == Status.demo) = true := by rw [hdemo]; rfl
  unfold sendMessage
  rw [hgenb, hdemob]
  simp only [Bool.not_true, Bool.false_and, Bool.false_eq_true, if_false, if_true]
  rw [hctl, hstop]
  have habort : ∀ j, abortedAtDemo none none j = false := fun _ => rfl
  rw [demoRevealedLength_never _ _ habort, strMk_take_length]
  rfl

/-- C6: `stopGeneration` is idempotent; when no generation is in flight it
leaves the observable session state unchanged; over every reachable
controller state (third conjunct: the reachability invariant) a
`stopGeneration` issued while no generation is in flight does not change the
outcome of any subsequent `sendMessage`; in particular a later demo-mode send
with no interleaved stop still reveals the full scripted response. -/
theorem stop_generation_idempotent_noop (cfg : ChatConfig) :
    (∀ s : HookState, stopGeneration (stopGeneration s) = stopGeneration s)
    ∧ (∀ s : HookState, s.status ≠ Status.generating →
        observableState (stopGeneration s) = observableState s)
    ∧ (∀ evs : List HookEv, hookInv (runHook cfg evs))
    ∧ (∀ (s : HookState) (env : SendEnv) (content : String), hookInv s →
        s.status ≠ Status.generating →
        sendMessage cfg env content (stopGeneration s)
          = sendMessage cfg env content s)
    ∧ (∀ (s : HookState) (env : SendEnv) (content : String),
        s.status = Status.demo → env.stopAt = none → s.abortCtl = none →
        sendMessage cfg env content (stopGeneration s) = Except.ok { s with
          messages := s.messages ++ [⟨env.userMsgId, Role.user, content, env.userTs⟩]
            ++ [⟨env.asstMsgId, Role.assistant, demoResponseAt s.demoResponseIndex,
                 env.asstTs⟩],
          status := Status.demo,
          demoResponseIndex := s.demoResponseIndex + 1,
          abortCtl := none }) := by
  refine ⟨stop_idem, fun s h => stop_obs s h, hookInv_run cfg, ?_, ?_⟩
  · intro s env content hinv hng
    exact stop_send_eq cfg env content s hinv hng
  · intro s env content hdemo hstop hctl
    have hng : s.status ≠ Status.generating := by rw [hdemo]; intro hc; cases hc
    rw [stop_noop_of_ctl_none s hng hctl]
    exact demo_send_full cfg env content s hdemo hstop hctl

def sDemoIdle : HookState := { hookInit with status := Status.demo }

theorem stop_generation_idempotent_noop_witness :
    stopGeneration (stopGeneration hookInit) = stopGeneration hookInit
    ∧ sendMessage cfg0 envSend0 "hi" (stopGeneration sDemoIdle)
        = Except.ok { sDemoIdle with
            messages := [⟨"u1", Role.user, "hi", 0⟩,
              ⟨"a1", Role.assistant, demoResponseAt 0, 1⟩],
            status := Status.demo,
            demoResponseIndex := 1,
            abortCtl := none } :=
  ⟨(stop_generation_idempotent_noop cfg0).1 hookInit,
    (stop_generation_idempotent_noop cfg0).2.2.2.2 sDemoIdle envSend0 "hi"
      rfl rfl rfl⟩

/-! #### Segmented machine for concurrent `initializeEngine` calls

`initializeEngine` suspends at `await disposeEngine()`, at
`await checkGPUSupport()` and at the dynamic import / `CreateMLCEngine(...)`
call (the last two construction awaits are merged — no observable state
changes between them).  Each machine step is one synchronous segment; other
calls can only be interposed at suspension points, which is exactly what the
event list expresses.  `constructCount` counts invocations of the engine
construction collaborator. -/

inductive InitPhase
  | disposing (env : InitEnv)
  | probing (env : InitEnv)
  | constructing (env : InitEnv)
deriving DecidableEq, Repr

structure InitMState where
  hs : HookState
  pc : Option InitPhase
  constructCount : Nat
deriving DecidableEq, Repr

inductive InitEv
  | call (env : InitEnv)
  | disposeDone
  | probeDone
  | constructDone
deriving DecidableEq, Repr

/-- The segment from `setStatus loading` up to the probe await (or to
completion on the test-environment path). -/
def initSegFromLoading (cfg : ChatConfig) (env : InitEnv) (hs : HookState) :
    HookState × Option InitPhase :=
  let hs' := initAfterDisposeState hs
  if env.isTestEnv then (testEnvDemoState cfg hs', none)
  else (hs', some (InitPhase.probing env))

def initMStep (cfg : ChatConfig) (m : InitMState) : InitEv → InitMState
  | InitEv.call env =>
      if initGuardBlocked m.hs then m
      else
        let hs1 := { m.hs with initializing := true }
        if needsDisposeCached cfg hs1 then
          { m with hs := initDisposeBeginState hs1,
                   pc := some (InitPhase.disposing env) }
        else
          let r := initSegFromLoading cfg env hs1
          { m with hs := r.1, pc := r.2 }
  | InitEv.disposeDone =>
      match m.pc with
      | some (InitPhase.disposing env) =>
          let r := initSegFromLoading cfg env (initDisposeEndState m.hs)
          { m with hs := r.1, pc := r.2 }
      | _ => m
  | InitEv.probeDone =>
      match m.pc with
      | some (InitPhase.probing env) =>
          if env.gpu.hasGPU = false then
            { m with hs := noGpuDemoState cfg env m.hs, pc := none }
          else
            { m with hs := initGpuPathState env m.hs,
                     pc := some (InitPhase.constructing env),
                     constructCount := m.constructCount + 1 }
      | _ => m
  | InitEv.constructDone =>
      match m.pc with
      | some (InitPhase.constructing env) =>
          match env.constructResult with
          | Except.ok _ => { m with hs := initSuccessState cfg m.hs, pc := none }
          | Except.error msg =>
              { m with hs := initFailureState cfg env msg m.hs, pc := none }
      | _ => m

def initM0 : InitMState := ⟨hookInit, none, 0⟩

def runInitM (cfg : ChatConfig) (evs : List InitEv) : InitMState :=
  evs.foldl (initMStep cfg) initM0

/-- A suspended initialization holds the in-progress flag. -/
def initMachineInv (m : InitMState) : Prop :=
  m.pc.isSome = true → m.hs.initializing = true

theorem initSegFromLoading_initializing (cfg : ChatConfig) (env : InitEnv)
    (hs : HookState) :
    (initSegFromLoading cfg env hs).2.isSome = true →
    (initSegFromLoading cfg env hs).1.initializing = hs.initializing := by
  unfold initSegFromLoading
  by_cases ht : env.isTestEnv = true
  · rw [ht]; intro hc; simp at hc
  · have ht' : env.isTestEnv = false := by
      cases hX : env.isTestEnv with
      | false => rfl
      | true => exact absurd hX ht
    rw [ht']
    intro _
    rfl

theorem initDisposeEndState_initializing (s : HookState) :
    (initDisposeEndState s).initializing = s.initializing := by
  unfold initDisposeEndState disposeEngineModel
  cases s.engine <;> rfl

theorem initMachineInv_step (cfg : ChatConfig) (m : InitMState) (ev : InitEv)
    (h : initMachineInv m) : initMachineInv (initMStep cfg m ev) := by
  cases ev with
  | call env =>
      by_cases hg : initGuardBlocked m.hs = true
      · simpa [initMStep, hg] using h
      · have hgf : initGuardBlocked m.hs = false := by
          cases hX : initGuardBlocked m.hs with
          | false => rfl
          | true => exact absurd hX hg
        unfold initMStep
        rw [hgf]
        simp only [Bool.false_eq_true, if_false]
        by_cases hdc : needsDisposeCached cfg { m.hs with initializing := true } = true
        · rw [if_pos hdc]
          intro _
          rfl
        · rw [if_neg hdc]
          intro hpc
          simp only at hpc ⊢
          rw [initSegFromLoading_initializing cfg env _ hpc]
  | disposeDone =>
      unfold initMStep
      cases hpc : m.pc with
      | none => simpa [hpc] using h
      | some ph =>
          cases ph with
          | disposing env =>
              simp only
              intro hpc2
              simp only at hpc2 ⊢
              rw [initSegFromLoading_initializing cfg env _ hpc2,
                initDisposeEndState_initializing]
              exact h (by rw [hpc]; rfl)
          | probing env => simpa [hpc] using h
          | constructing env => simpa [hpc] using h
  | probeDone =>
      unfold initMStep
      cases hpc : m.pc with
      | none => simpa [hpc] using h
      | some ph =>
          cases ph with
          | disposing env => simpa [hpc] using h
          | probing env =>
              dsimp only
              by_cases hgpu : env.gpu.hasGPU = false
              · rw [if_pos hgpu]
                intro hc; simp at hc
              · rw [if_neg hgpu]
                intro _
                have : m.hs.initializing = true := h (by rw [hpc]; rfl)
                simpa [initGpuPathState] using this
          | constructing env => simpa [hpc] using h
  | constructDone =>
      unfold initMStep
      cases hpc : m.pc with
      | none => simpa [hpc] using h
      | some ph =>
          cases ph with
          | disposing env => simpa [hpc] using h
          | probing env => simpa [hpc] using h
          | constructing env =>
              dsimp only
              cases hres : env.constructResult with
              | ok u => intro hc; simp at hc
              | error msg => intro hc; simp at hc

theorem initMachineInv_run (cfg : ChatConfig) (evs : List InitEv) :
    initMachineInv (runInitM cfg evs) := by
  induction evs using List.reverseRecOn with
  | nil => intro hc; simp [runInitM, initM0] at hc
  | append_singleton evs ev ih =>
      have hstep : runInitM cfg (evs ++ [ev]) = initMStep cfg (runInitM cfg evs) ev := by
        simp [runInitM, List.foldl_append]
      rw [hstep]
      exact initMachineInv_step cfg (runInitM cfg evs) ev ih

/-- C3: over every sequence of `initializeEngine` calls and resumptions,
(1) a suspended initialization holds the in-progress flag, so (2,3) a call
made while an initialization is in flight, while an engine handle exists, or
while status is `loading`/`demo`, returns as a no-op (the function also never
throws — every failure is converted to state), and (4) while a construction
is in flight, no event except the construction settling changes the number of
construction-collaborator invocations: the collaborator is invoked at most
once until the in-flight construction resolves or rejects. -/
theorem initialize_concurrent_guard (cfg : ChatConfig) :
    (∀ evs : List InitEv, initMachineInv (runInitM cfg evs))
    ∧ (∀ (s : HookState) (env : InitEnv), initGuardBlocked s = true →
        initializeEngine cfg env s = s)
    ∧ (∀ (m : InitMState) (env : InitEnv), initGuardBlocked m.hs = true →
        initMStep cfg m (InitEv.call env) = m)
    ∧ (∀ (m : InitMState) (env : InitEnv) (ev : InitEv),
        initMachineInv m → m.pc = some (InitPhase.constructing env) →
        ev ≠ InitEv.constructDone →
        (initMStep cfg m ev).constructCount = m.constructCount) := by
  refine ⟨initMachineInv_run cfg, ?_, ?_, ?_⟩
  · intro s env hg
    unfold initializeEngine
    rw [hg]
    rfl
  · intro m env hg
    unfold initMStep
    rw [hg]
    rfl
  · intro m env ev hinv hpc hne
    cases ev with
    | call env' =>
        have hi : m.hs.initializing = true := hinv (by rw [hpc]; rfl)
        have hg : initGuardBlocked m.hs = true := by
          unfold initGuardBlocked
          rw [hi]
          rfl
        simp [initMStep, hg]
    | disposeDone => simp [initMStep, hpc]
    | probeDone => simp [initMStep, hpc]
    | constructDone => exact absurd rfl hne

def envC3 : InitEnv := ⟨false, ⟨true, true, none, none⟩, false, Except.ok ()⟩

def c3Trace : List InitEv := [InitEv.call envC3, InitEv.probeDone]

theorem initialize_concurrent_guard_witness :
    initMachineInv (runInitM cfg0 c3Trace)
    ∧ (initMStep cfg0 (runInitM cfg0 c3Trace) (InitEv.call envC3)).constructCount
        = (runInitM cfg0 c3Trace).constructCount
    ∧ (runInitM cfg0 c3Trace).constructCount = 1 :=
  ⟨(initialize_concurrent_guard cfg0).1 c3Trace,
   (initialize_concurrent_guard cfg0).2.2.2 _ envC3 (InitEv.call envC3)
      ((initialize_concurrent_guard cfg0).1 c3Trace) (by decide) (by decide),
   by decide⟩

/-! #### Memory-fault fallback and demo-path caching -/

theorem initializeEngine_construct_error (cfg : ChatConfig) (env : InitEnv)
    (s : HookState) (msg : String) (hg : initGuardBlocked s = false)
    (ht : env.isTestEnv = false) (hgpu : env.gpu.hasGPU = true)
    (hres : env.constructResult = Except.error msg) :
    initializeEngine cfg env s
      = initFailureState cfg env msg (initGpuPathState env (initAfterDisposeState
          (if needsDisposeCached cfg { s with initializing := true }
           then initDisposeEndState (initDisposeBeginState { s with initializing := true })
           else { s with initializing := true }))) := by
  unfold initializeEngine
  rw [hg, ht, hres]
  simp [hgpu]

theorem initFailureClassify_memory_some (cfg : ChatConfig) (env : InitEnv)
    (msg : String) (s : HookState) (m : ModelInfo)
    (hc : isCacheError msg = false) (hgp : isGpuInitError msg = false)
    (hm : isMemoryError msg = true)
    (hnext : getNextSmallerModel cfg.modelId env.gpu.supportsShaderF16
        env.lowResource = some m) :
    initFailureClassify cfg env msg s = { s with
      suggestedModelId := some m.id,
      error := some (memErrorText
        (jsOrDefault ((getModelById cfg.modelId).map ModelInfo.name) "Selected model")
        m (getSmallestModel env.gpu.supportsShaderF16 env.lowResource).name),
      status := Status.error } := by
  unfold initFailureClassify
  rw [hc, hgp, hm, hnext]
  simp

theorem initFailureClassify_memory_none (cfg : ChatConfig) (env : InitEnv)
    (msg : String) (s : HookState)
    (hc : isCacheError msg = false) (hgp : isGpuInitError msg = false)
    (hm : isMemoryError msg = true)
    (hnext : getNextSmallerModel cfg.modelId env.gpu.supportsShaderF16
        env.lowResource = none) :
    initFailureClassify cfg env msg s = { s with
      mode := some EngineMode.demo, status := Status.demo,
      gpuInfo := some "Insufficient memory for AI models",
      loadingProgress := ⟨"Demo mode active - Insufficient memory", 100⟩ } := by
  unfold initFailureClassify
  rw [hc, hgp, hm, hnext]
  simp

/-- C5: when construction fails with a memory/allocation-classified message
(not classified as a cache or GPU fault), `initializeEngine` queries the
fallback selector: if a next smaller compatible model exists the state ends
in `status = error` with `suggestedModelId` populated and an error message
naming both the failed and the suggested model; if none exists (the selected
model is first in — or absent from — the usable list) the state ends
degraded (`status = demo`), not in `error`. -/
theorem memory_fault_fallback (cfg : ChatConfig) (env : InitEnv) (s : HookState)
    (msg : String)
    (hg : initGuardBlocked s = false) (ht : env.isTestEnv = false)
    (hgpu : env.gpu.hasGPU = true) (hres : env.constructResult = Except.error msg)
    (hc : isCacheError msg = false) (hgp : isGpuInitError msg = false)
    (hm : isMemoryError msg = true) :
    (∀ m : ModelInfo,
      getNextSmallerModel cfg.modelId env.gpu.supportsShaderF16 env.lowResource = some m →
      (initializeEngine cfg env s).status = Status.error
      ∧ (initializeEngine cfg env s).suggestedModelId = some m.id
      ∧ ∃ t, (initializeEngine cfg env s).error = some t
          ∧ strHasSub t (jsOrDefault ((getModelById cfg.modelId).map ModelInfo.name)
              "Selected model") = true
          ∧ strHasSub t m.name = true)
    ∧ (getNextSmallerModel cfg.modelId env.gpu.supportsShaderF16 env.lowResource = none →
        (initializeEngine cfg env s).status = Status.demo
        ∧ (initializeEngine cfg env s).mode = some EngineMode.demo) := by
  rw [initializeEngine_construct_error cfg env s msg hg ht hgpu hres]
  constructor
  · intro m hnext
    rw [initFailureState, initFailureClassify_memory_some cfg env msg _ m hc hgp hm hnext]
    refine ⟨by simp, by simp, ?_⟩
    refine ⟨memErrorText
      (jsOrDefault ((getModelById cfg.modelId).map ModelInfo.name) "Selected model")
      m (getSmallestModel env.gpu.supportsShaderF16 env.lowResource).name,
      by simp, memErrorText_has_current _ _ _, memErrorText_has_next _ _ _⟩
  · intro hnone
    rw [initFailureState, initFailureClassify_memory_none cfg env msg _ hc hgp hm hnone]
    exact ⟨by simp, by simp⟩

def cfgC5 : ChatConfig := ⟨"Llama-3.2-3B-Instruct-q4f32_1-MLC"⟩

def envC5 : InitEnv := ⟨false, ⟨true, false, none, none⟩, false, Except.error "Out of memory"⟩

def mC5 : ModelInfo :=
  ⟨"Llama-3.2-1B-Instruct-q4f32_1-MLC", "Llama 3.2 1B (f32)", 113000, true, ShaderType.f32⟩

theorem memory_fault_fallback_witness :
    (initializeEngine cfgC5 envC5 hookInit).status = Status.error
    ∧ (initializeEngine cfgC5 envC5 hookInit).suggestedModelId
        = some "Llama-3.2-1B-Instruct-q4f32_1-MLC" :=
  have h := (memory_fault_fallback cfgC5 envC5 hookInit "Out of memory"
    (by decide) rfl rfl rfl (by decide) (by decide) (by decide)).1 mC5 (by decide)
  ⟨h.1, h.2.1⟩

/-- C9: both probe-driven degraded entries (the test-environment signal and a
probe reporting no compatible accelerator) set `cachedModelId` to the
selected model id while the engine reference stays `null` — so a non-null
`cachedModelId` does not imply a live engine handle. -/
theorem demo_init_caches_model_without_engine (cfg : ChatConfig) (env : InitEnv)
    (s : HookState) (hg : initGuardBlocked s = false)
    (hdemo : env.isTestEnv = true ∨ env.gpu.hasGPU = false) :
    (initializeEngine cfg env s).cachedModelId = some cfg.modelId
    ∧ (initializeEngine cfg env s).engine = none
    ∧ (initializeEngine cfg env s).status = Status.demo := by
  obtain ⟨hi, he, hl, hd⟩ := initGuard_fields s hg
  unfold initializeEngine
  rw [hg]
  simp only [Bool.false_eq_true, if_false]
  by_cases hdc : needsDisposeCached cfg { s with initializing := true } = true
  case pos =>
    rw [if_pos hdc]
    by_cases ht : env.isTestEnv = true
    · rw [ht]
      refine ⟨?_, ?_, ?_⟩ <;>
        simp [testEnvDemoState, initAfterDisposeState, initDisposeEndState,
          initDisposeBeginState, disposeEngineModel, he]
    · have ht' : env.isTestEnv = false := by
        cases hX : env.isTestEnv with
        | false => rfl
        | true => exact absurd hX ht
      have hngpu : env.gpu.hasGPU = false := by
        rcases hdemo with h' | h'
        · exact absurd h' ht
        · exact h'
      rw [ht', hngpu]
      refine ⟨?_, ?_, ?_⟩ <;>
        simp [noGpuDemoState, initAfterDisposeState, initDisposeEndState,
          initDisposeBeginState, disposeEngineModel, he]
  case neg =>
    rw [if_neg hdc]
    by_cases ht : env.isTestEnv = true
    · rw [ht]
      refine ⟨?_, ?_, ?_⟩ <;>
        simp [testEnvDemoState, initAfterDisposeState, he]
    · have ht' : env.isTestEnv = false := by
        cases hX : env.isTestEnv with
        | false => rfl
        | true => exact absurd hX ht
      have hngpu : env.gpu.hasGPU = false := by
        rcases hdemo with h' | h'
        · exact absurd h' ht
        · exact h'
      rw [ht', hngpu]
      refine ⟨?_, ?_, ?_⟩ <;>
        simp [noGpuDemoState, initAfterDisposeState, he]

def envC9 : InitEnv := ⟨true, ⟨false, false, none, none⟩, false, Except.ok ()⟩

theorem demo_init_caches_model_without_engine_witness :
    (initializeEngine cfg0 envC9 hookInit).cachedModelId = some cfg0.modelId
    ∧ (initializeEngine cfg0 envC9 hookInit).engine = none
    ∧ (initializeEngine cfg0 envC9 hookInit).status = Status.demo :=
  demo_init_caches_model_without_engine cfg0 envC9 hookInit (by decide) (Or.inl rfl)

theorem catalog_grouping_and_mobile_take_witness :
    (⟨"Llama-3.2-1B-Instruct-q4f32_1-MLC", "Llama 3.2 1B (f32)", 113000, true,
        ShaderType.f32⟩ : ModelInfo).vramCentiMB
      ≤ (⟨"Llama-3.1-8B-Instruct-q4f32_1-MLC-1k", "Llama 3.1 8B (1k, f32)", 530000, true,
        ShaderType.f32⟩ : ModelInfo).vramCentiMB :=
  catalog_grouping_and_mobile_take.2.2.2.2.2 _ (by decide) _ (by decide)
